import Mathlib

/-!
Verification of data-dash: the authentication and session gate of `main.go`.

A shallow embedding of the login rate limiter, the Google token verifier, the
JWT secret loader, the auth middleware and the login handler of `main.go`,
followed by the properties established about them.

Modelling conventions.

* A Go `string` is a `List Char`.  Every string operation the program uses
  (`==`, `strings.HasPrefix`, `strings.Split` on `"@"`, `strings.Contains`,
  `hex.DecodeString`) works on bytes with ASCII patterns, which on UTF-8 text
  is the same as working on characters.
* A `time.Time` is an integer count of nanoseconds on one clock; a
  `time.Duration` is an `int64` count of nanoseconds and `Time.Sub` saturates.
* A `[]byte` is a `List (Fin 256)`.
* Package-level variables (`loginAttempts`, `CompanyDomain`, `GoogleClientID`,
  `JWTSecret`) and the outside world (clock, environment, file system, random
  source, Google's tokeninfo endpoint, the jwt library) are explicit arguments.
-/

namespace DataDash

/-- Go `string`. -/
abbrev GoString := List Char

/-- Go `byte`. -/
abbrev Byte := Fin 256

/-! ## time -/

/-- Largest `time.Duration` (`1<<63 - 1`). -/
def maxDuration : Int := 2 ^ 63 - 1

/-- Smallest `time.Duration` (`-1 << 63`). -/
def minDuration : Int := -(2 ^ 63)

/-- Constant `time.Minute` in nanoseconds. -/
def Minute : Int := 60 * 1000000000

/-- Method `Time.Sub`: the duration `t - u`, saturated to the `int64` range. -/
def timeSub (t u : Int) : Int :=
  if t - u > maxDuration then maxDuration
  else if t - u < minDuration then minDuration
  else t - u

/-! ## checkRateLimit -/

/-- Package variable `loginAttempts`: a Go map read with the zero value (the nil
slice) for an absent key. -/
abbrev AttemptLog := GoString → List Int

/-- The empty map `make(map[string][]time.Time)`. -/
def emptyLog : AttemptLog := fun _ => []

/-- The loop of `checkRateLimit` that appends to `recentAttempts` every attempt
younger than 15 minutes. -/
def recentLoop (now : Int) : List Int → List Int → List Int
  | [], recentAttempts => recentAttempts
  | attempt :: rest, recentAttempts =>
    if timeSub now attempt < 15 * Minute then
      recentLoop now rest (recentAttempts ++ [attempt])
    else
      recentLoop now rest recentAttempts

/-- Function `checkRateLimit(ip)`, with the map and `time.Now()` passed in and
the updated map passed out. -/
def checkRateLimit (loginAttempts : AttemptLog) (now : Int) (ip : GoString) :
    Bool × AttemptLog :=
  let attempts := loginAttempts ip
  let recentAttempts := recentLoop now attempts []
  if recentAttempts.length ≥ 5 then
    (false, loginAttempts)
  else
    (true, Function.update loginAttempts ip (recentAttempts ++ [now]))

/-- The reference of the rate limiter in the words of the specification: keep
the timestamps strictly younger than 15 minutes; five or more of them reject
and change nothing; otherwise accept and store them followed by `now`.
Fifteen minutes are 900000000000 nanoseconds. -/
def checkRateLimitRef (log : AttemptLog) (now : Int) (ip : GoString) :
    Bool × AttemptLog :=
  let recent := (log ip).filter (fun t => decide (now - t < 900000000000))
  if 5 ≤ recent.length then (false, log)
  else (true, fun c => if c = ip then recent ++ [now] else log c)

/-- A sequence of `checkRateLimit` calls `(ip, now)`, each paired with its
answer, threading the map through. -/
def runCalls (log : AttemptLog) : List (GoString × Int) → List (GoString × Bool) × AttemptLog
  | [] => ([], log)
  | (ip, now) :: rest =>
    let r := checkRateLimit log now ip
    let rs := runCalls r.2 rest
    ((ip, r.1) :: rs.1, rs.2)

/-- The answers given to one client in a run of calls, in order. -/
def clientResults (ip : GoString) (log : AttemptLog) (calls : List (GoString × Int)) :
    List Bool :=
  ((runCalls log calls).1.filter (fun c => decide (c.1 = ip))).map (fun c => c.2)

/-- The times at which one client called, in order. -/
def clientTimes (ip : GoString) (calls : List (GoString × Int)) : List Int :=
  (calls.filter (fun c => decide (c.1 = ip))).map (fun c => c.2)

/-! ## strings -/

/-- Function `strings.HasPrefix`. -/
def stringsHasPrefix (s pre : GoString) : Bool :=
  pre.isPrefixOf s

/-- Function `strings.Contains`. -/
def stringsContains (s substr : GoString) : Bool :=
  decide (substr <:+: s)

/-- Function `strings.Split(s, sep)` for a one-byte separator: the pieces of `s`
between the occurrences of `sep`; a string without `sep` gives one piece. -/
def stringsSplit (sep : Char) : GoString → List GoString
  | [] => [[]]
  | c :: s =>
    if c = sep then [] :: stringsSplit sep s
    else
      match stringsSplit sep s with
      | [] => [[c]]
      | part :: parts => (c :: part) :: parts

/-! ## verifyGoogleToken -/

/-- The fields of `oauth2.Tokeninfo` that the program reads. -/
structure Tokeninfo where
  Audience : GoString
  IssuedTo : GoString
  ExpiresIn : Int
  Email : GoString
deriving DecidableEq

/-- What the oauth2 client library does for one id token: `oauth2.NewService`
fails, `tokenInfoCall.Do()` fails, or `Do()` returns the tokeninfo. -/
inductive Upstream where
  | serviceError (err : GoString)
  | doError (err : GoString)
  | info (tokenInfo : Tokeninfo)
deriving DecidableEq

/-- Function `verifyGoogleToken(idToken)`; `tokeninfo` is Google's answer for
each id token.  An error carries the text of `fmt.Errorf`. -/
def verifyGoogleToken (GoogleClientID CompanyDomain : GoString)
    (tokeninfo : GoString → Upstream) (idToken : GoString) : Except GoString Tokeninfo :=
  match tokeninfo idToken with
  | .serviceError err => .error ("failed to create oauth2 service: ".toList ++ err)
  | .doError err => .error ("failed to verify token: ".toList ++ err)
  | .info tokenInfo =>
    let expectedAudience := GoogleClientID
    if tokenInfo.Audience ≠ expectedAudience then
      .error ("invalid audience: got ".toList ++ tokenInfo.Audience
        ++ ", expected ".toList ++ expectedAudience)
    else if tokenInfo.IssuedTo ≠ expectedAudience then
      .error ("invalid issued_to: got ".toList ++ tokenInfo.IssuedTo
        ++ ", expected ".toList ++ expectedAudience)
    else if tokenInfo.ExpiresIn ≤ 0 then
      .error "token has expired".toList
    else if tokenInfo.Email = [] then
      .error "no email in token".toList
    else if CompanyDomain = [] then
      .error "COMPANY_DOMAIN not configured".toList
    else if stringsHasPrefix CompanyDomain "@".toList then
      let emailParts := stringsSplit '@' tokenInfo.Email
      if emailParts.length ≠ 2 then
        .error "invalid email format".toList
      else
        let expectedDomain := CompanyDomain.drop 1
        if emailParts.getD 1 [] ≠ expectedDomain then
          .error ("invalid domain: got ".toList ++ emailParts.getD 1 []
            ++ ", expected ".toList ++ expectedDomain)
        else
          .ok tokenInfo
    else
      if tokenInfo.Email ≠ CompanyDomain then
        .error ("invalid email: got ".toList ++ tokenInfo.Email
          ++ ", expected ".toList ++ CompanyDomain)
      else
        .ok tokenInfo

/-- The checks of `verifyGoogleToken` that come before the domain policy:
audience, issued_to, expiry and a non-empty email. -/
def passesEarlyChecks (GoogleClientID : GoString) (tokenInfo : Tokeninfo) : Prop :=
  tokenInfo.Audience = GoogleClientID ∧ tokenInfo.IssuedTo = GoogleClientID
    ∧ 0 < tokenInfo.ExpiresIn ∧ tokenInfo.Email ≠ []

/-- The domain policy in the words of the specification. -/
def domainPolicy (CompanyDomain email : GoString) : Prop :=
  if stringsHasPrefix CompanyDomain "@".toList = true then
    (stringsSplit '@' email).length = 2
      ∧ (stringsSplit '@' email).getD 1 [] = CompanyDomain.drop 1
  else
    email = CompanyDomain

instance (CompanyDomain email : GoString) : Decidable (domainPolicy CompanyDomain email) := by
  unfold domainPolicy; infer_instance

instance (GoogleClientID : GoString) (tokenInfo : Tokeninfo) :
    Decidable (passesEarlyChecks GoogleClientID tokenInfo) := by
  unfold passesEarlyChecks; infer_instance

/-! ## encoding/hex -/

/-- The errors of `hex.DecodeString`: `ErrLength` and `InvalidByteError`. -/
inductive HexError where
  | length
  | invalidByte (c : Char)
deriving DecidableEq

/-- Value of one hexadecimal digit, in either case. -/
def fromHexChar (c : Char) : Option Nat :=
  if '0' ≤ c ∧ c ≤ '9' then some (c.toNat - '0'.toNat)
  else if 'a' ≤ c ∧ c ≤ 'f' then some (c.toNat - 'a'.toNat + 10)
  else if 'A' ≤ c ∧ c ≤ 'F' then some (c.toNat - 'A'.toNat + 10)
  else none

/-- Function `hex.DecodeString`: two digits per byte; the first invalid digit
or an odd length is an error. -/
def hexDecodeString : GoString → Except HexError (List Byte)
  | [] => .ok []
  | [p] => if fromHexChar p = none then .error (.invalidByte p) else .error .length
  | p :: q :: rest =>
    match fromHexChar p, fromHexChar q with
    | none, _ => .error (.invalidByte p)
    | some _, none => .error (.invalidByte q)
    | some a, some b =>
      match hexDecodeString rest with
      | .error e => .error e
      | .ok bytes => .ok (Fin.ofNat (a * 16 + b) :: bytes)

/-- The digit table `hextable = "0123456789abcdef"`. -/
def hextable : List Char := "0123456789abcdef".toList

/-- Function `hex.EncodeToString`: `hextable[v>>4]` then `hextable[v&0x0f]` for
every byte. -/
def hexEncodeToString : List Byte → GoString
  | [] => []
  | v :: rest =>
    hextable.getD (v.val / 16) '0' :: hextable.getD (v.val % 16) '0' :: hexEncodeToString rest

/-! ## loadOrGenerateJWTSecret -/

/-- State of the file `.jwt_secret`: `os.Stat` fails, `os.Stat` succeeds and
`ioutil.ReadFile` fails, or the file is read. -/
inductive SecretFile where
  | missing
  | unreadable (err : GoString)
  | content (data : GoString)
deriving DecidableEq

/-- The errors `loadOrGenerateJWTSecret` returns. -/
inductive SecretError where
  | invalidFormat (err : HexError)
  | readFailed (err : GoString)
  | generateFailed
deriving DecidableEq

/-- What `loadOrGenerateJWTSecret` sees of the outside world: the value of
`os.Getenv("JWT_SECRET")` (empty when unset), the secret file, the bytes
`rand.Read` delivers (`none` when it fails) and whether `ioutil.WriteFile`
succeeds. -/
structure SecretWorld where
  env : GoString
  file : SecretFile
  random : Option (Nat → Byte)
  writeOk : Bool

/-- What `loadOrGenerateJWTSecret` leaves behind: its return value, the secret
file afterwards and the lines it logged. -/
structure SecretOutcome where
  result : Except SecretError (List Byte)
  file : SecretFile
  logs : List GoString

/-- Function `rand.Read(b)`: fills the whole of `b` or fails. -/
def randRead (random : Option (Nat → Byte)) (b : List Byte) : Option (List Byte) :=
  match random with
  | none => none
  | some src => some ((List.range b.length).map src)

/-- The tail of `loadOrGenerateJWTSecret` from `// Generate new secret` on. -/
def generateSecret (w : SecretWorld) (logs : List GoString) : SecretOutcome :=
  let secret := List.replicate 32 (0 : Byte)
  match randRead w.random secret with
  | none => { result := .error .generateFailed, file := w.file, logs := logs }
  | some secret =>
    let secretHex := hexEncodeToString secret
    if w.writeOk then
      { result := .ok secret, file := .content secretHex,
        logs := logs ++ ["New JWT secret generated and saved to file".toList] }
    else
      { result := .ok secret, file := w.file,
        logs := logs ++ ["Warning: failed to save JWT secret to file".toList] }

/-- The part of `loadOrGenerateJWTSecret` from `// Try to load existing secret
from file` on. -/
def loadFromFile (w : SecretWorld) (logs : List GoString) : SecretOutcome :=
  match w.file with
  | .missing => generateSecret w logs
  | .unreadable err => { result := .error (.readFailed err), file := w.file, logs := logs }
  | .content secretHex =>
    match hexDecodeString secretHex with
    | .error _ =>
      generateSecret w (logs ++ ["Invalid JWT secret in file, generating new one".toList])
    | .ok secret =>
      if secret.length = 32 then
        { result := .ok secret, file := w.file,
          logs := logs ++ ["JWT secret loaded from file".toList] }
      else
        generateSecret w
          (logs ++ ["JWT secret in file has incorrect length, generating new one".toList])

/-- Function `loadOrGenerateJWTSecret()`. -/
def loadOrGenerateJWTSecret (w : SecretWorld) : SecretOutcome :=
  if w.env ≠ [] then
    match hexDecodeString w.env with
    | .error err => { result := .error (.invalidFormat err), file := w.file, logs := [] }
    | .ok secret =>
      if secret.length = 32 then
        { result := .ok secret, file := w.file,
          logs := ["JWT secret loaded from environment variable".toList] }
      else
        loadFromFile w
          ["JWT_SECRET in environment has incorrect length, generating new one".toList]
  else
    loadFromFile w []

/-! ## session tokens -/

/-- Type `Claims`: the email and the two registered claims the program sets. -/
structure Claims where
  Email : GoString
  ExpiresAt : Option Int
  IssuedAt : Option Int
deriving DecidableEq

/-- What `jwt.ParseWithClaims` hands back: the claims it filled in, the
`Valid` flag of the token and the error, if any. -/
structure ParseResult where
  claims : Claims
  Valid : Bool
  err : Option GoString

/-- Constant `time.Hour` in nanoseconds. -/
def Hour : Int := 60 * Minute

/-- Function `generateJWT(email)`; `signedString` is `token.SignedString` of the
jwt library, `now₁` and `now₂` are the two readings of `time.Now()`. -/
def generateJWT (signedString : Claims → List Byte → Except GoString GoString)
    (JWTSecret : List Byte) (now₁ now₂ : Int) (email : GoString) : Except GoString GoString :=
  let expirationTime := now₁ + 24 * Hour
  let claims : Claims :=
    { Email := email, ExpiresAt := some expirationTime, IssuedAt := some now₂ }
  signedString claims JWTSecret

/-- Function `validateJWT(tokenString)`; `parseWithClaims` is
`jwt.ParseWithClaims` with the key function that returns `JWTSecret`. -/
def validateJWT (parseWithClaims : GoString → List Byte → ParseResult)
    (JWTSecret : List Byte) (tokenString : GoString) : Except GoString Claims :=
  let parsed := parseWithClaims tokenString JWTSecret
  match parsed.err with
  | some err => .error err
  | none =>
    if !parsed.Valid then
      .error "invalid token".toList
    else
      .ok parsed.claims

/-! ## requests and replies -/

/-- A request cookie. -/
structure Cookie where
  Name : GoString
  Value : GoString
deriving DecidableEq

/-- What the handlers read of an `http.Request`: the remote address, the
cookies in header order, the values `ParseForm` leaves in `r.Form`, whether
`ParseForm` reported an error, and the values of `r.Context()`. -/
structure Request where
  RemoteAddr : GoString
  cookies : List Cookie
  Form : List (GoString × GoString)
  parseFormOk : Bool
  context : List (GoString × GoString)

/-- Method `r.Cookie(name)`: the first cookie of that name; `none` stands for
the nil cookie returned together with `http.ErrNoCookie`. -/
def requestCookie (r : Request) (name : GoString) : Option Cookie :=
  if name = [] then none
  else r.cookies.find? (fun c => decide (c.Name = name))

/-- Method `r.Form.Get(key)`: the first value of the key, or the empty string. -/
def formGet (form : List (GoString × GoString)) (key : GoString) : GoString :=
  match form.find? (fun kv => decide (kv.1 = key)) with
  | some kv => kv.2
  | none => []

/-- Function `context.WithValue`. -/
def contextWithValue (ctx : List (GoString × GoString)) (key val : GoString) :
    List (GoString × GoString) :=
  (key, val) :: ctx

/-- Method `ctx.Value(key)`: the innermost value stored under the key. -/
def contextValue (ctx : List (GoString × GoString)) (key : GoString) : Option GoString :=
  (ctx.find? (fun kv => decide (kv.1 = key))).map (fun kv => kv.2)

/-- The cookie built by `createSecureCookie`; `SameSite` is always Lax. -/
structure HttpCookie where
  Name : GoString
  Value : GoString
  Path : GoString
  MaxAge : Int
  HttpOnly : Bool
  Secure : Bool
deriving DecidableEq

/-- Function `createSecureCookie(name, value, maxAge)`. -/
def createSecureCookie (IsProduction : Bool) (name value : GoString) (maxAge : Int) :
    HttpCookie :=
  { Name := name, Value := value, Path := "/".toList, MaxAge := maxAge,
    HttpOnly := true, Secure := IsProduction }

/-- How a handler finishes: `http.Error(w, msg, code)`,
`http.Redirect(w, r, url, code)`, the call `next.ServeHTTP` with the request
context it passes on, or a run-time panic on a nil pointer, after which
net/http aborts the connection without a response. -/
inductive Reply where
  | error (msg : GoString) (code : Nat)
  | redirect (url : GoString) (code : Nat)
  | next (ctx : List (GoString × GoString))
  | nilPanic
deriving DecidableEq

/-- The HTTP status of a reply written by the handler itself. -/
def Reply.status : Reply → Option Nat
  | .error _ code => some code
  | .redirect _ code => some code
  | .next _ => none
  | .nilPanic => none

/-- Status codes of net/http. -/
def StatusSeeOther : Nat := 303
/-- Status 401. -/
def StatusUnauthorized : Nat := 401
/-- Status 403. -/
def StatusForbidden : Nat := 403
/-- Status 429. -/
def StatusTooManyRequests : Nat := 429
/-- Status 500. -/
def StatusInternalServerError : Nat := 500

/-! ## authMiddleware -/

/-- The handler returned by `authMiddleware(next)`, run on one request. -/
def authMiddleware (parseWithClaims : GoString → List Byte → ParseResult)
    (JWTSecret : List Byte) (r : Request) : Reply :=
  match requestCookie r "auth_token".toList with
  | none => .redirect "/".toList StatusSeeOther
  | some cookie =>
    match validateJWT parseWithClaims JWTSecret cookie.Value with
    | .error _ => .redirect "/".toList StatusSeeOther
    | .ok claims =>
      let ctx := contextWithValue r.context "user_email".toList claims.Email
      .next ctx

/-! ## loginApiHandler -/

/-- The program's configuration variables set in `init`. -/
structure Config where
  GoogleClientID : GoString
  CompanyDomain : GoString
  JWTSecret : List Byte
  IsProduction : Bool

/-- The outside world of one login request: the reading of `time.Now()` in
`checkRateLimit`, Google's answer for each id token, the two clock readings in
`generateJWT` and the signing function of the jwt library. -/
structure LoginWorld where
  now : Int
  tokeninfo : GoString → Upstream
  jwtNow₁ : Int
  jwtNow₂ : Int
  signedString : Claims → List Byte → Except GoString GoString

/-- What one run of `loginApiHandler` does: how it finishes, the cookies it
set, the arguments of its calls to `verifyGoogleToken`, the attempt log
afterwards and the lines it printed. -/
structure LoginOutcome where
  reply : Reply
  setCookies : List HttpCookie
  verifierCalls : List GoString
  loginAttempts : AttemptLog
  stdout : List GoString

/-- The part of `loginApiHandler` from the call of `verifyGoogleToken` on. -/
def loginVerify (cfg : Config) (w : LoginWorld) (log : AttemptLog) (cred : GoString)
    (out : List GoString) : LoginOutcome :=
  match verifyGoogleToken cfg.GoogleClientID cfg.CompanyDomain w.tokeninfo cred with
  | .error err =>
    let out := out ++ ["Token verification failed: ".toList ++ err]
    let reply :=
      if stringsContains err "invalid domain".toList then
        Reply.error "Access denied.".toList StatusForbidden
      else if stringsContains err "token has expired".toList then
        Reply.error "Authentication failed: Token expired".toList StatusUnauthorized
      else
        Reply.error "Authentication failed: Invalid credentials".toList StatusUnauthorized
    { reply := reply, setCookies := [], verifierCalls := [cred], loginAttempts := log,
      stdout := out }
  | .ok tokenInfo =>
    match generateJWT w.signedString cfg.JWTSecret w.jwtNow₁ w.jwtNow₂ tokenInfo.Email with
    | .error err =>
      { reply := .error "Session creation failed".toList StatusInternalServerError,
        setCookies := [], verifierCalls := [cred], loginAttempts := log,
        stdout := out ++ ["JWT generation failed: ".toList ++ err] }
    | .ok jwtToken =>
      { reply := .redirect "/dashboard".toList StatusSeeOther,
        setCookies := [createSecureCookie cfg.IsProduction "auth_token".toList jwtToken 86400],
        verifierCalls := [cred], loginAttempts := log,
        stdout := out ++ ["Login successful for user: ".toList ++ tokenInfo.Email] }

/-- Function `loginApiHandler(w, r)`. -/
def loginApiHandler (cfg : Config) (w : LoginWorld) (loginAttempts : AttemptLog)
    (r : Request) : LoginOutcome :=
  let out := ["login endpoint hit".toList]
  let clientIP := r.RemoteAddr
  let limited := checkRateLimit loginAttempts w.now clientIP
  if !limited.1 then
    { reply := .error "Too many login attempts. Please try again later.".toList
        StatusTooManyRequests,
      setCookies := [], verifierCalls := [], loginAttempts := limited.2, stdout := out }
  else
    let csrf_token_cookie := requestCookie r "g_csrf_token".toList
    let out := if csrf_token_cookie = none then out ++ ["error getting cookie".toList] else out
    match csrf_token_cookie with
    | none =>
      -- `csrf_token_cookie.Value` on the nil cookie
      { reply := .nilPanic, setCookies := [], verifierCalls := [],
        loginAttempts := limited.2, stdout := out }
    | some csrf_token_cookie =>
      let out := out ++ [csrf_token_cookie.Value]
      let out := if r.parseFormOk then out else out ++ ["error parsing form".toList]
      let csrf_token_body := formGet r.Form "g_csrf_token".toList
      let out := if csrf_token_body = [] then out ++ ["no csrf in post body".toList] else out
      let out := out ++ ["csrf token:".toList, csrf_token_body]
      let out :=
        if csrf_token_cookie.Value ≠ csrf_token_body then
          out ++ ["csrf values do not match".toList]
        else
          out ++ ["csrf values match!".toList]
      let cred := formGet r.Form "credential".toList
      let out :=
        if cred = [] then out ++ ["empty credentials or no credential value?".toList] else out
      loginVerify cfg w limited.2 cred out

/-! ## auxiliary definitions for the proofs -/

deriving instance DecidableEq for Except

/-- One `checkRateLimit` call seen from the list of a single client. -/
def clientStep (l : List Int) (now : Int) : Bool × List Int :=
  let recent := l.filter (fun t => decide (now - t < 900000000000))
  if 5 ≤ recent.length then (false, l) else (true, recent ++ [now])

/-- The answers to a run of calls of a single client whose list starts as `l`. -/
def clientRun (l : List Int) : List Int → List Bool
  | [] => []
  | now :: rest => (clientStep l now).1 :: clientRun (clientStep l now).2 rest

/-! ## sample inputs -/

/-- A tokeninfo for the client id `cid` that passes the checks before the
domain policy, with the given email. -/
def sampleInfo (email : GoString) : Tokeninfo :=
  { Audience := "cid".toList, IssuedTo := "cid".toList, ExpiresIn := 3600, Email := email }

/-- The text `loginApiHandler` looks for in the verification error. -/
def marker : GoString := "invalid domain".toList

/-- The strings of an upstream answer that `verifyGoogleToken` copies into its
error texts. -/
def upstreamStrings : Upstream → List GoString
  | .serviceError err => [err]
  | .doError err => [err]
  | .info tokenInfo => [tokenInfo.Audience, tokenInfo.IssuedTo, tokenInfo.Email]

/-- The verification failure raised by the comparison of the domain part: the
earlier checks pass, the company domain starts with `@`, the email splits into
exactly two parts and the second part differs from the configured domain. -/
def isDomainMismatch (cid cd : GoString) : Upstream → Prop
  | .info tokenInfo =>
    passesEarlyChecks cid tokenInfo ∧ stringsHasPrefix cd "@".toList = true
      ∧ (stringsSplit '@' tokenInfo.Email).length = 2
      ∧ (stringsSplit '@' tokenInfo.Email).getD 1 [] ≠ cd.drop 1
  | _ => False

/-- A tokeninfo issued for another audience, with the given audience string. -/
def otherAudienceInfo (audience : GoString) : Tokeninfo :=
  { Audience := audience, IssuedTo := "cid".toList, ExpiresIn := 3600,
    Email := "bob@example.com".toList }

/-- A request with the given `g_csrf_token` cookie (if any) and form values. -/
def sampleRequest (cookie : Option GoString) (csrfBody cred : GoString) : Request :=
  { RemoteAddr := "203.0.113.7:40000".toList,
    cookies := match cookie with
      | none => []
      | some v => [{ Name := "g_csrf_token".toList, Value := v }],
    Form := [("g_csrf_token".toList, csrfBody), ("credential".toList, cred)],
    parseFormOk := true,
    context := [] }

/-- A configuration with client id `cid` and the given company domain. -/
def sampleConfig (companyDomain : GoString) : Config :=
  { GoogleClientID := "cid".toList, CompanyDomain := companyDomain,
    JWTSecret := List.replicate 32 0, IsProduction := false }

/-- A world in which Google answers every id token with the given upstream
outcome and signing succeeds. -/
def sampleWorld (up : Upstream) : LoginWorld :=
  { now := 0, tokeninfo := fun _ => up, jwtNow₁ := 0, jwtNow₂ := 0,
    signedString := fun _ _ => .ok "signed".toList }

/-- The environment does not settle the secret: `JWT_SECRET` is unset (empty)
or decodes to a length other than 32. -/
def envSkipped (w : SecretWorld) : Prop :=
  w.env = [] ∨ ∃ s, hexDecodeString w.env = .ok s ∧ s.length ≠ 32

/-- The secret file does not settle the secret: it is missing, or its content
is not valid hex, or decodes to a length other than 32. -/
def fileSkipped (w : SecretWorld) : Prop :=
  w.file = .missing
    ∨ ∃ d, w.file = .content d ∧ ∀ s, hexDecodeString d = .ok s → s.length ≠ 32

/-- The freshly generated secret: 32 bytes from the random source. -/
def freshSecret (src : Nat → Byte) : List Byte :=
  (List.range 32).map src

/-- What generation returns: the fresh secret, or the error of `rand.Read`. -/
def generatedResult (w : SecretWorld) : Except SecretError (List Byte) :=
  match w.random with
  | none => .error .generateFailed
  | some src => .ok (freshSecret src)

/-- What the file stage returns. -/
def fileResult (w : SecretWorld) : Except SecretError (List Byte) :=
  match w.file with
  | .missing => generatedResult w
  | .unreadable err => .error (.readFailed err)
  | .content d =>
    match hexDecodeString d with
    | .error _ => generatedResult w
    | .ok s => if s.length = 32 then .ok s else generatedResult w

/-- A world for the secret loader with a working random source that delivers
zero bytes and a working file write. -/
def sampleSecretWorld (env : GoString) (file : SecretFile) : SecretWorld :=
  { env := env, file := file, random := some (fun _ => 0), writeOk := true }

/-- The content of a valid secret file: 64 hexadecimal digits, 32 bytes `01`. -/
def sampleFileHex : GoString :=
  "0101010101010101010101010101010101010101010101010101010101010101".toList

/-! ## rate limiter: lemmas -/

theorem timeSub_lt_window (t u : Int) :
    timeSub t u < 15 * Minute ↔ t - u < 900000000000 := by
  unfold timeSub maxDuration minDuration Minute
  split_ifs <;> omega

theorem recentLoop_eq_filter (now : Int) (l acc : List Int) :
    recentLoop now l acc
      = acc ++ l.filter (fun t => decide (now - t < 900000000000)) := by
  induction l generalizing acc with
  | nil => simp [recentLoop]
  | cons a rest ih =>
    by_cases h : now - a < 900000000000
    · simp [recentLoop, (timeSub_lt_window now a).2 h, ih, h]
    · simp [recentLoop, mt (timeSub_lt_window now a).1 h, ih, h]

theorem checkRateLimit_eq_ref (log : AttemptLog) (now : Int) (ip : GoString) :
    checkRateLimit log now ip = checkRateLimitRef log now ip := by
  unfold checkRateLimit checkRateLimitRef
  simp only [recentLoop_eq_filter, List.nil_append, ge_iff_le]
  split_ifs
  · rfl
  · congr 1
    funext c
    by_cases hc : c = ip
    · subst hc; simp
    · simp [Function.update_noteq hc, hc]


theorem checkRateLimit_fst (log : AttemptLog) (now : Int) (ip : GoString) :
    (checkRateLimit log now ip).1 = (clientStep (log ip) now).1 := by
  rw [checkRateLimit_eq_ref]
  unfold checkRateLimitRef clientStep
  simp only []
  split_ifs <;> rfl

theorem checkRateLimit_snd_same (log : AttemptLog) (now : Int) (ip : GoString) :
    (checkRateLimit log now ip).2 ip = (clientStep (log ip) now).2 := by
  rw [checkRateLimit_eq_ref]
  unfold checkRateLimitRef clientStep
  simp only []
  split_ifs <;> simp

theorem checkRateLimit_snd_other (log : AttemptLog) (now : Int) (ip other : GoString)
    (h : other ≠ ip) : (checkRateLimit log now ip).2 other = log other := by
  rw [checkRateLimit_eq_ref]
  unfold checkRateLimitRef
  simp only []
  split_ifs <;> simp [h]

theorem clientResults_eq_clientRun (ip : GoString) (calls : List (GoString × Int))
    (log : AttemptLog) :
    clientResults ip log calls = clientRun (log ip) (clientTimes ip calls) := by
  induction calls generalizing log with
  | nil => simp [clientResults, clientTimes, runCalls, clientRun]
  | cons c rest ih =>
    obtain ⟨ip', now⟩ := c
    have ih' := ih (checkRateLimit log now ip').2
    unfold clientResults clientTimes at ih' ⊢
    by_cases h : ip' = ip
    · subst h
      simp only [runCalls, List.filter_cons, decide_True, if_true, List.map_cons, clientRun]
      rw [ih', checkRateLimit_fst, checkRateLimit_snd_same]
    · have h' : ip ≠ ip' := fun e => h e.symm
      simp only [runCalls, List.filter_cons, h, decide_False, Bool.false_eq_true, if_false]
      rw [ih', checkRateLimit_snd_other log now ip' ip h']

theorem clientStep_accept (l : List Int) (now : Int)
    (hall : ∀ a ∈ l, now - a < 900000000000) (hlen : l.length < 5) :
    clientStep l now = (true, l ++ [now]) := by
  have hf : l.filter (fun t => decide (now - t < 900000000000)) = l :=
    List.filter_eq_self.2 (fun a ha => by simpa using hall a ha)
  unfold clientStep
  simp only [hf]
  rw [if_neg (by omega)]

theorem clientStep_reject (l : List Int) (now : Int)
    (hall : ∀ a ∈ l, now - a < 900000000000) (hlen : 5 ≤ l.length) :
    clientStep l now = (false, l) := by
  have hf : l.filter (fun t => decide (now - t < 900000000000)) = l :=
    List.filter_eq_self.2 (fun a ha => by simpa using hall a ha)
  unfold clientStep
  simp only [hf]
  rw [if_pos hlen]

theorem clientStep_head_expired (a : Int) (rest : List Int) (now : Int)
    (hexp : 900000000000 ≤ now - a) (hlen : rest.length ≤ 4) :
    (clientStep (a :: rest) now).1 = true := by
  have hlt : ¬ now - a < 900000000000 := by omega
  have hle := List.length_filter_le (fun t => decide (now - t < 900000000000)) rest
  unfold clientStep
  simp only [List.filter_cons, hlt, decide_False, Bool.false_eq_true, if_false]
  rw [if_neg (by omega)]

theorem clientRun_rejected (l mid tail : List Int)
    (hall : ∀ s ∈ mid, ∀ a ∈ l, s - a < 900000000000) (hlen : 5 ≤ l.length) :
    clientRun l (mid ++ tail) = List.replicate mid.length false ++ clientRun l tail := by
  induction mid with
  | nil => simp
  | cons s rest ih =>
    have hs := clientStep_reject l s (hall s (List.mem_cons_self _ _)) hlen
    have ih' := ih (fun x hx => hall x (List.mem_cons_of_mem _ hx))
    rw [List.cons_append]
    simp only [clientRun, hs, ih', List.length_cons, List.replicate_succ, List.cons_append]

/-- C2. For every attempt log, client and clock reading, `checkRateLimit`
equals the reference: with `recent` the stored timestamps strictly younger than
15 minutes, five or more of them give `false` and the unchanged log, fewer give
`true` and the log in which this client's list is `recent` followed by `now`
and every other client's list is as before. -/
theorem C2_checkRateLimit_refines_reference (log : AttemptLog) (now : Int) (ip : GoString) :
    checkRateLimit log now ip = checkRateLimitRef log now ip :=
  checkRateLimit_eq_ref log now ip

/-- C3. From the empty log, for one client calling at `t1 ≤ ... ≤ t6` with
`t6 - t1` under 15 minutes (calls of other clients interleaved at will): the
first five calls are accepted, the sixth is rejected, every further call of
that client made less than 15 minutes after `t1` is rejected, and the first
call made 15 minutes or more after `t1` is accepted. -/
theorem C3_six_calls_then_window_reopens (ip : GoString) (calls : List (GoString × Int))
    (t1 t2 t3 t4 t5 t6 t : Int) (mid : List Int)
    (hcalls : clientTimes ip calls = [t1, t2, t3, t4, t5, t6] ++ mid ++ [t])
    (h12 : t1 ≤ t2) (h23 : t2 ≤ t3) (h34 : t3 ≤ t4) (h45 : t4 ≤ t5) (h56 : t5 ≤ t6)
    (hspan : t6 - t1 < 900000000000)
    (hmid : ∀ s ∈ mid, s - t1 < 900000000000)
    (ht : 900000000000 ≤ t - t1) :
    clientResults ip emptyLog calls
      = [true, true, true, true, true, false] ++ List.replicate mid.length false ++ [true] := by
  rw [clientResults_eq_clientRun, hcalls]
  have s1 : clientStep [] t1 = (true, [t1]) :=
    clientStep_accept [] t1 (by simp) (by simp)
  have s2 : clientStep [t1] t2 = (true, [t1, t2]) :=
    clientStep_accept [t1] t2 (by simp; omega) (by simp)
  have s3 : clientStep [t1, t2] t3 = (true, [t1, t2, t3]) :=
    clientStep_accept [t1, t2] t3 (by simp; omega) (by simp)
  have s4 : clientStep [t1, t2, t3] t4 = (true, [t1, t2, t3, t4]) :=
    clientStep_accept [t1, t2, t3] t4 (by simp; omega) (by simp)
  have s5 : clientStep [t1, t2, t3, t4] t5 = (true, [t1, t2, t3, t4, t5]) :=
    clientStep_accept [t1, t2, t3, t4] t5 (by simp; omega) (by simp)
  have s6 : clientStep [t1, t2, t3, t4, t5] t6 = (false, [t1, t2, t3, t4, t5]) :=
    clientStep_reject [t1, t2, t3, t4, t5] t6 (by simp; omega) (by simp)
  have hm : ∀ s ∈ mid, ∀ a ∈ [t1, t2, t3, t4, t5], s - a < 900000000000 := by
    intro s hs a ha
    have := hmid s hs
    simp at ha
    omega
  have s7 : (clientStep [t1, t2, t3, t4, t5] t).1 = true :=
    clientStep_head_expired t1 [t2, t3, t4, t5] t ht (by simp)
  have hrun := clientRun_rejected [t1, t2, t3, t4, t5] mid [t] hm (by simp)
  simp only [emptyLog, List.cons_append, List.nil_append, List.append_assoc]
  simp only [clientRun, s1, s2, s3, s4, s5, s6, hrun, s7]


/-- Witness of C3: client `a` calls at 0..5 ns, once more at 6 ns and then 15
minutes after its first call, with one call of client `b` in between. -/
theorem C3_six_calls_then_window_reopens_witness :
    clientTimes "a".toList
        [("a".toList, 0), ("b".toList, 1), ("a".toList, 1), ("a".toList, 2), ("a".toList, 3),
          ("a".toList, 4), ("a".toList, 5), ("a".toList, 6), ("a".toList, 900000000000)]
      = [0, 1, 2, 3, 4, 5] ++ [6] ++ [900000000000]
    ∧ clientResults "a".toList emptyLog
        [("a".toList, 0), ("b".toList, 1), ("a".toList, 1), ("a".toList, 2), ("a".toList, 3),
          ("a".toList, 4), ("a".toList, 5), ("a".toList, 6), ("a".toList, 900000000000)]
      = [true, true, true, true, true, false, false, true] :=
  ⟨by decide,
    C3_six_calls_then_window_reopens "a".toList
      [("a".toList, 0), ("b".toList, 1), ("a".toList, 1), ("a".toList, 2), ("a".toList, 3),
        ("a".toList, 4), ("a".toList, 5), ("a".toList, 6), ("a".toList, 900000000000)]
      0 1 2 3 4 5 900000000000 [6] (by decide) (by decide) (by decide) (by decide) (by decide)
      (by decide) (by decide) (by decide) (by decide)⟩

/-! ## verifyGoogleToken: the domain policy -/

theorem verifyGoogleToken_of_early (cid cd : GoString) (tokeninfo : GoString → Upstream)
    (idToken : GoString) (ti : Tokeninfo) (hup : tokeninfo idToken = .info ti)
    (hearly : passesEarlyChecks cid ti) :
    verifyGoogleToken cid cd tokeninfo idToken =
      if cd = [] then .error "COMPANY_DOMAIN not configured".toList
      else if stringsHasPrefix cd "@".toList then
        if (stringsSplit '@' ti.Email).length ≠ 2 then .error "invalid email format".toList
        else if (stringsSplit '@' ti.Email).getD 1 [] ≠ cd.drop 1 then
          .error ("invalid domain: got ".toList ++ (stringsSplit '@' ti.Email).getD 1 []
            ++ ", expected ".toList ++ cd.drop 1)
        else .ok ti
      else if ti.Email ≠ cd then
        .error ("invalid email: got ".toList ++ ti.Email ++ ", expected ".toList ++ cd)
      else .ok ti := by
  obtain ⟨ha, hi, he, hm⟩ := hearly
  have he' : ¬ ti.ExpiresIn ≤ 0 := by omega
  unfold verifyGoogleToken
  rw [hup]
  simp only [ha, hi, he', hm, ne_eq, not_true_eq_false, if_false]

theorem verifyGoogleToken_ok_iff (cid cd : GoString) (tokeninfo : GoString → Upstream)
    (idToken : GoString) (ti : Tokeninfo) (hup : tokeninfo idToken = .info ti)
    (hearly : passesEarlyChecks cid ti) :
    verifyGoogleToken cid cd tokeninfo idToken = .ok ti ↔ domainPolicy cd ti.Email := by
  rw [verifyGoogleToken_of_early cid cd tokeninfo idToken ti hup hearly]
  have hm : ti.Email ≠ [] := hearly.2.2.2
  unfold domainPolicy
  by_cases hcd : cd = []
  · subst hcd
    rw [if_pos rfl, if_neg (by decide)]
    constructor
    · intro h; cases h
    · intro h; exact absurd h hm
  · rw [if_neg hcd]
    split_ifs with hp h2 hd hE
    · exact ⟨fun h => (by cases h), fun h => absurd h.1 h2⟩
    · exact ⟨fun h => (by cases h), fun h => absurd h.2 hd⟩
    · exact ⟨fun _ => ⟨not_not.1 h2, not_not.1 hd⟩, fun _ => rfl⟩
    · exact ⟨fun h => (by cases h), fun h => absurd h hE⟩
    · exact ⟨fun _ => not_not.1 hE, fun _ => rfl⟩


theorem stringsSplit_ne_nil (sep : Char) (s : GoString) : stringsSplit sep s ≠ [] := by
  cases s with
  | nil => simp [stringsSplit]
  | cons c s =>
    unfold stringsSplit
    split_ifs
    · simp
    · split <;> simp

theorem stringsSplit_cons_sep (sep : Char) (s : GoString) :
    stringsSplit sep (sep :: s) = [] :: stringsSplit sep s := by
  rw [stringsSplit, if_pos rfl]

theorem stringsSplit_cons_other (sep c : Char) (s : GoString) (h : c ≠ sep) :
    ∃ part parts, stringsSplit sep s = part :: parts
      ∧ stringsSplit sep (c :: s) = (c :: part) :: parts := by
  rw [stringsSplit, if_neg h]
  cases hs : stringsSplit sep s with
  | nil => exact absurd hs (stringsSplit_ne_nil sep s)
  | cons part parts => exact ⟨part, parts, rfl, rfl⟩

theorem stringsSplit_eq_singleton (sep : Char) (s a : GoString) :
    stringsSplit sep s = [a] ↔ a = s ∧ sep ∉ s := by
  induction s generalizing a with
  | nil => simp [stringsSplit, eq_comm]
  | cons c s ih =>
    by_cases h : c = sep
    · subst h
      rw [stringsSplit_cons_sep]
      simp [stringsSplit_ne_nil]
    · obtain ⟨part, parts, hs, hc⟩ := stringsSplit_cons_other sep c s h
      rw [hc]
      constructor
      · intro e
        simp only [List.cons.injEq] at e
        obtain ⟨e1, e2⟩ := e
        subst e2
        have := (ih part).1 hs
        refine ⟨by rw [← e1, this.1], ?_⟩
        simp [this.2, Ne.symm h]
      · rintro ⟨rfl, hn⟩
        have hn' : sep ∉ s := fun hmem => hn (List.mem_cons_of_mem _ hmem)
        have := (ih s).2 ⟨rfl, hn'⟩
        rw [hs] at this
        simp only [List.cons.injEq] at this
        rw [this.1, this.2]

theorem stringsSplit_eq_pair (sep : Char) (s a b : GoString) :
    stringsSplit sep s = [a, b] ↔ s = a ++ sep :: b ∧ sep ∉ a ∧ sep ∉ b := by
  induction s generalizing a with
  | nil => simp [stringsSplit]
  | cons c s ih =>
    by_cases h : c = sep
    · subst h
      rw [stringsSplit_cons_sep]
      constructor
      · intro e
        simp only [List.cons.injEq] at e
        obtain ⟨e1, e2⟩ := e
        have := (stringsSplit_eq_singleton c s b).1 e2
        subst e1
        exact ⟨by simp [this.1], by simp, by rw [this.1]; exact this.2⟩
      · rintro ⟨e, ha, hb⟩
        cases a with
        | nil =>
          simp only [List.nil_append, List.cons.injEq, true_and] at e
          subst e
          rw [(stringsSplit_eq_singleton c s s).2 ⟨rfl, hb⟩]
        | cons x a' =>
          simp only [List.cons_append, List.cons.injEq] at e
          exact absurd (e.1 ▸ List.mem_cons_self x a') ha
    · obtain ⟨part, parts, hs, hc⟩ := stringsSplit_cons_other sep c s h
      rw [hc]
      constructor
      · intro e
        simp only [List.cons.injEq] at e
        obtain ⟨e1, e2⟩ := e
        subst e2
        obtain ⟨h1, h2, h3⟩ := (ih part).1 hs
        subst e1
        refine ⟨by simp [h1], ?_, h3⟩
        simp [h2, Ne.symm h]
      · rintro ⟨e, ha, hb⟩
        cases a with
        | nil =>
          simp only [List.nil_append, List.cons.injEq] at e
          exact absurd e.1 h
        | cons x a' =>
          simp only [List.cons_append, List.cons.injEq] at e
          obtain ⟨e1, e2⟩ := e
          have ha' : sep ∉ a' := fun hmem => ha (List.mem_cons_of_mem _ hmem)
          have := (ih a').2 ⟨e2, ha', hb⟩
          rw [hs] at this
          simp only [List.cons.injEq] at this
          rw [e1, this.1, this.2]

theorem split_two_parts_iff (email d : GoString) :
    ((stringsSplit '@' email).length = 2 ∧ (stringsSplit '@' email).getD 1 [] = d)
      ↔ ∃ name, email = name ++ '@' :: d ∧ '@' ∉ name ∧ '@' ∉ d := by
  constructor
  · rintro ⟨hl, hd⟩
    match hs : stringsSplit '@' email, hl, hd with
    | [a, b], _, hd =>
      have hb : b = d := by simpa using hd
      subst hb
      exact ⟨a, (stringsSplit_eq_pair '@' email a b).1 hs⟩
  · rintro ⟨name, h⟩
    rw [(stringsSplit_eq_pair '@' email name d).2 h]
    simp


/-- C4. For every tokeninfo that passes the audience, issued_to, expiry and
non-empty-email checks, `verifyGoogleToken` succeeds (returning that tokeninfo)
exactly when the domain policy holds, and fails otherwise.  With a company
domain that starts with `@` the policy says the email is `name@domain` with no
further `@`, compared case-sensitively; `@example.com` accepts
`bob@example.com` and rejects `bob@other.com`; `admin@example.com` accepts that
email only. -/
theorem C4_verify_succeeds_iff_domain_policy (cid cd : GoString)
    (tokeninfo : GoString → Upstream) (idToken : GoString) (ti : Tokeninfo)
    (hup : tokeninfo idToken = .info ti) (hearly : passesEarlyChecks cid ti) :
    (verifyGoogleToken cid cd tokeninfo idToken = .ok ti ↔ domainPolicy cd ti.Email)
    ∧ ((∃ msg, verifyGoogleToken cid cd tokeninfo idToken = .error msg)
        ↔ ¬ domainPolicy cd ti.Email)
    ∧ (stringsHasPrefix cd "@".toList = true →
        (verifyGoogleToken cid cd tokeninfo idToken = .ok ti
          ↔ ∃ name, ti.Email = name ++ '@' :: cd.drop 1 ∧ '@' ∉ name ∧ '@' ∉ cd.drop 1))
    ∧ (cd = "@example.com".toList → ti.Email = "bob@example.com".toList →
        verifyGoogleToken cid cd tokeninfo idToken = .ok ti)
    ∧ (cd = "@example.com".toList → ti.Email = "bob@other.com".toList →
        ∃ msg, verifyGoogleToken cid cd tokeninfo idToken = .error msg)
    ∧ (cd = "admin@example.com".toList →
        (verifyGoogleToken cid cd tokeninfo idToken = .ok ti
          ↔ ti.Email = "admin@example.com".toList)) := by
  have hiff := verifyGoogleToken_ok_iff cid cd tokeninfo idToken ti hup hearly
  have herr : (∃ msg, verifyGoogleToken cid cd tokeninfo idToken = .error msg)
      ↔ ¬ domainPolicy cd ti.Email := by
    rw [← hiff, verifyGoogleToken_of_early cid cd tokeninfo idToken ti hup hearly]
    split_ifs <;> simp
  refine ⟨hiff, herr, ?_, ?_, ?_, ?_⟩
  · intro hp
    rw [hiff, ← split_two_parts_iff]
    unfold domainPolicy
    rw [if_pos hp]
  · intro hcd he
    rw [hiff, hcd, he]
    decide
  · intro hcd he
    rw [herr, hcd, he]
    decide
  · intro hcd
    rw [hiff, hcd]
    unfold domainPolicy
    rw [if_neg (by decide)]

/-- Witness of C4: `bob@example.com` under the company domain `@example.com`. -/
theorem C4_verify_succeeds_iff_domain_policy_witness :
    passesEarlyChecks "cid".toList (sampleInfo "bob@example.com".toList)
    ∧ verifyGoogleToken "cid".toList "@example.com".toList
        (fun _ => .info (sampleInfo "bob@example.com".toList)) "token".toList
      = .ok (sampleInfo "bob@example.com".toList) :=
  ⟨by decide,
    (C4_verify_succeeds_iff_domain_policy "cid".toList "@example.com".toList
      (fun _ => .info (sampleInfo "bob@example.com".toList)) "token".toList
      (sampleInfo "bob@example.com".toList) rfl (by decide)).1.2 (by decide)⟩


/-! ## loginApiHandler -/

theorem loginVerify_verifierCalls (cfg : Config) (w : LoginWorld) (log : AttemptLog)
    (cred : GoString) (out : List GoString) :
    (loginVerify cfg w log cred out).verifierCalls = [cred] := by
  unfold loginVerify
  split
  · rfl
  · split <;> rfl

theorem loginVerify_error_status (cfg : Config) (w : LoginWorld) (log : AttemptLog)
    (cred : GoString) (out : List GoString) (err : GoString)
    (h : verifyGoogleToken cfg.GoogleClientID cfg.CompanyDomain w.tokeninfo cred = .error err) :
    (loginVerify cfg w log cred out).reply.status
      = some (if marker <:+: err then StatusForbidden else StatusUnauthorized) := by
  unfold loginVerify
  rw [h]
  by_cases hm : marker <:+: err
  · have : stringsContains err "invalid domain".toList = true := by
      unfold stringsContains; exact decide_eq_true hm
    simp only [this, if_true, if_pos hm, Reply.status]
  · have : stringsContains err "invalid domain".toList = false := by
      unfold stringsContains; exact decide_eq_false hm
    simp only [this, Bool.false_eq_true, if_false, if_neg hm]
    split_ifs <;> rfl

theorem loginApiHandler_reaches_verify (cfg : Config) (w : LoginWorld) (log : AttemptLog)
    (r : Request) (c : Cookie)
    (hrate : (checkRateLimit log w.now r.RemoteAddr).1 = true)
    (hc : requestCookie r "g_csrf_token".toList = some c) :
    ∃ out, loginApiHandler cfg w log r
      = loginVerify cfg w (checkRateLimit log w.now r.RemoteAddr).2
          (formGet r.Form "credential".toList) out := by
  unfold loginApiHandler
  simp only [hrate, hc, Bool.not_true, Bool.false_eq_true, if_false]
  exact ⟨_, rfl⟩


/-- C1 (what the code does). For every login request that passes the rate
limit and whose `g_csrf_token` cookie differs from the `g_csrf_token` form
field, `loginApiHandler` prints `csrf values do not match` and goes on to call
`verifyGoogleToken` once, with the submitted credential: the request is not
rejected before verification. -/
theorem C1_csrf_mismatch_reaches_verifier (cfg : Config) (w : LoginWorld) (log : AttemptLog)
    (r : Request) (c : Cookie)
    (hrate : (checkRateLimit log w.now r.RemoteAddr).1 = true)
    (hc : requestCookie r "g_csrf_token".toList = some c)
    (hne : c.Value ≠ formGet r.Form "g_csrf_token".toList) :
    (loginApiHandler cfg w log r).verifierCalls = [formGet r.Form "credential".toList]
    ∧ "csrf values do not match".toList ∈ (loginApiHandler cfg w log r).stdout := by
  constructor
  · obtain ⟨out, h⟩ := loginApiHandler_reaches_verify cfg w log r c hrate hc
    rw [h, loginVerify_verifierCalls]
  · unfold loginApiHandler
    simp only [hrate, hc, Bool.not_true, Bool.false_eq_true, if_false, ne_eq, hne,
      not_false_eq_true, if_true]
    unfold loginVerify
    split
    · simp only [List.mem_append, List.mem_singleton]
      split_ifs <;> simp
    · split <;>
      · simp only [List.mem_append, List.mem_singleton]
        split_ifs <;> simp

/-- Witness of C1: cookie token `abc`, body token `xyz`; the verifier is
called once and the login even succeeds. -/
theorem C1_csrf_mismatch_reaches_verifier_witness :
    (loginApiHandler (sampleConfig "@example.com".toList)
        (sampleWorld (.info (sampleInfo "bob@example.com".toList))) emptyLog
        (sampleRequest (some "abc".toList) "xyz".toList "credential".toList)).verifierCalls
      = ["credential".toList]
    ∧ "csrf values do not match".toList ∈
      (loginApiHandler (sampleConfig "@example.com".toList)
        (sampleWorld (.info (sampleInfo "bob@example.com".toList))) emptyLog
        (sampleRequest (some "abc".toList) "xyz".toList "credential".toList)).stdout :=
  C1_csrf_mismatch_reaches_verifier (sampleConfig "@example.com".toList)
    (sampleWorld (.info (sampleInfo "bob@example.com".toList))) emptyLog
    (sampleRequest (some "abc".toList) "xyz".toList "credential".toList)
    { Name := "g_csrf_token".toList, Value := "abc".toList } (by decide) (by decide) (by decide)

/-- C10 (what the code does). For every login request that passes the rate
limit and carries no `g_csrf_token` cookie, `loginApiHandler` prints
`error getting cookie` and then reads `Value` of the nil cookie: it panics,
writes no HTTP response and never reaches the verifier. -/
theorem C10_missing_cookie_panics (cfg : Config) (w : LoginWorld) (log : AttemptLog)
    (r : Request)
    (hrate : (checkRateLimit log w.now r.RemoteAddr).1 = true)
    (hc : requestCookie r "g_csrf_token".toList = none) :
    (loginApiHandler cfg w log r).reply = .nilPanic
    ∧ (loginApiHandler cfg w log r).reply.status = none
    ∧ (loginApiHandler cfg w log r).verifierCalls = []
    ∧ (loginApiHandler cfg w log r).stdout
        = ["login endpoint hit".toList, "error getting cookie".toList] := by
  unfold loginApiHandler
  simp only [hrate, hc, Bool.not_true, Bool.false_eq_true, if_false, if_true, Reply.status,
    List.cons_append, List.nil_append, and_self]

/-- Witness of C10: a first request from a client, without any cookie. -/
theorem C10_missing_cookie_panics_witness :
    requestCookie (sampleRequest none "xyz".toList "credential".toList) "g_csrf_token".toList
      = none
    ∧ (loginApiHandler (sampleConfig "@example.com".toList)
        (sampleWorld (.info (sampleInfo "bob@example.com".toList))) emptyLog
        (sampleRequest none "xyz".toList "credential".toList)).reply = .nilPanic :=
  ⟨by decide,
    (C10_missing_cookie_panics (sampleConfig "@example.com".toList)
      (sampleWorld (.info (sampleInfo "bob@example.com".toList))) emptyLog
      (sampleRequest none "xyz".toList "credential".toList) (by decide) (by decide)).1⟩


/-! ## where the text `invalid domain` can occur in an error -/

theorem infix_append_cons_of_not_mem {p a b : GoString} {c : Char} (hc : c ∉ p) :
    p <:+: a ++ c :: b ↔ p <:+: a ∨ p <:+: b := by
  constructor
  · rintro ⟨s, t, h⟩
    rcases List.append_eq_append_iff.1 h with ⟨a', ha, _⟩ | ⟨c', hc', hb⟩
    · exact Or.inl ⟨s, a', ha.symm⟩
    · cases c' with
      | nil =>
        rw [List.append_nil] at hc'
        exact Or.inl ⟨s, [], by rw [List.append_nil]; exact hc'⟩
      | cons x c'' =>
        simp only [List.cons_append, List.cons.injEq] at hb
        obtain ⟨hx, hb⟩ := hb
        subst hx
        rcases List.append_eq_append_iff.1 hc' with ⟨a', _, hp⟩ | ⟨d, hs, hd⟩
        · exact absurd (hp ▸ List.mem_append_right a' (List.mem_cons_self _ _)) hc
        · cases d with
          | nil =>
            rw [List.nil_append] at hd
            exact absurd (hd ▸ List.mem_cons_self _ _) hc
          | cons y d' =>
            simp only [List.cons_append, List.cons.injEq] at hd
            refine Or.inr ⟨d', t, ?_⟩
            rw [hb, hd.2]
  · rintro (h | h)
    · exact h.trans (List.infix_append' [] a (c :: b))
    · exact h.trans ((List.suffix_cons c b).isInfix.trans (List.suffix_append a (c :: b)).isInfix)

theorem marker_infix_cons (c : Char) (x : GoString) (hc : c ≠ 'i') :
    marker <:+: c :: x ↔ marker <:+: x := by
  rw [List.infix_cons_iff]
  constructor
  · rintro (h | h)
    · obtain ⟨t, ht⟩ := h
      simp only [marker, String.toList, List.cons_append, List.cons.injEq] at ht
      exact absurd ht.1.symm hc
    · exact h
  · exact Or.inr

theorem marker_infix_strip (l x : GoString) (hl : ∀ c ∈ l, c ≠ 'i') :
    marker <:+: l ++ x ↔ marker <:+: x := by
  induction l with
  | nil => simp
  | cons c l ih =>
    rw [List.cons_append, marker_infix_cons c _ (hl c (List.mem_cons_self _ _))]
    exact ih (fun d hd => hl d (List.mem_cons_of_mem _ hd))

theorem marker_infix_colon (head x : GoString) (hhead : ¬ marker <:+: head) :
    marker <:+: head ++ ": ".toList ++ x ↔ marker <:+: x := by
  have e : head ++ ": ".toList ++ x = head ++ ':' :: (" ".toList ++ x) := by
    simp [String.toList]
  rw [e, infix_append_cons_of_not_mem (by decide), marker_infix_strip _ _ (by decide)]
  simp [hhead]

theorem marker_infix_got_expected (head a b : GoString) (hhead : ¬ marker <:+: head) :
    marker <:+: head ++ ": got ".toList ++ a ++ ", expected ".toList ++ b
      ↔ marker <:+: a ∨ marker <:+: b := by
  have e : head ++ ": got ".toList ++ a ++ ", expected ".toList ++ b
      = head ++ ':' :: ((" got ".toList ++ a) ++ ',' :: (" expected ".toList ++ b)) := by
    simp [String.toList]
  rw [e, infix_append_cons_of_not_mem (by decide), infix_append_cons_of_not_mem (by decide),
    marker_infix_strip _ _ (by decide), marker_infix_strip _ _ (by decide)]
  simp [hhead]


theorem marker_infix_domain_message (a b : GoString) :
    marker <:+: "invalid domain: got ".toList ++ a ++ ", expected ".toList ++ b :=
  ⟨[], ": got ".toList ++ a ++ ", expected ".toList ++ b, by simp [marker, String.toList]⟩

theorem verify_error_marker_iff (cid cd : GoString) (tokeninfo : GoString → Upstream)
    (idToken err : GoString)
    (h : verifyGoogleToken cid cd tokeninfo idToken = .error err)
    (hclean : ∀ s ∈ upstreamStrings (tokeninfo idToken) ++ [cid, cd], ¬ marker <:+: s) :
    marker <:+: err ↔ isDomainMismatch cid cd (tokeninfo idToken) := by
  unfold verifyGoogleToken at h
  cases hu : tokeninfo idToken with
  | serviceError e =>
    rw [hu] at h hclean
    have he : ¬ marker <:+: e := hclean e (by simp [upstreamStrings])
    injection h with h
    subst h
    simp only [isDomainMismatch, iff_false]
    exact fun hm =>
      he ((marker_infix_colon "failed to create oauth2 service".toList e (by decide)).1 hm)
  | doError e =>
    rw [hu] at h hclean
    have he : ¬ marker <:+: e := hclean e (by simp [upstreamStrings])
    injection h with h
    subst h
    simp only [isDomainMismatch, iff_false]
    exact fun hm =>
      he ((marker_infix_colon "failed to verify token".toList e (by decide)).1 hm)
  | info ti =>
    rw [hu] at h hclean
    have hA : ¬ marker <:+: ti.Audience := hclean _ (by simp [upstreamStrings])
    have hI : ¬ marker <:+: ti.IssuedTo := hclean _ (by simp [upstreamStrings])
    have hE : ¬ marker <:+: ti.Email := hclean _ (by simp [upstreamStrings])
    have hcid : ¬ marker <:+: cid := hclean _ (by simp)
    have hcd : ¬ marker <:+: cd := hclean _ (by simp)
    simp only [isDomainMismatch, passesEarlyChecks]
    simp only [] at h
    split_ifs at h with h1 h2 h3 h4 h5 h6 h7 h8 h9
    · injection h with h
      subst h
      have := marker_infix_got_expected "invalid audience".toList ti.Audience cid (by decide)
      exact ⟨fun hm => absurd (this.1 hm) (by tauto), fun hd => absurd hd.1.1 h1⟩
    · injection h with h
      subst h
      have := marker_infix_got_expected "invalid issued_to".toList ti.IssuedTo cid (by decide)
      exact ⟨fun hm => absurd (this.1 hm) (by tauto), fun hd => absurd hd.1.2.1 h2⟩
    · injection h with h
      subst h
      exact ⟨fun hm => absurd hm (by decide), fun hd => absurd hd.1.2.2.1 (by omega)⟩
    · injection h with h
      subst h
      exact ⟨fun hm => absurd hm (by decide), fun hd => absurd h4 hd.1.2.2.2⟩
    · injection h with h
      subst h
      refine ⟨fun hm => absurd hm (by decide), fun hd => ?_⟩
      rw [h5] at hd
      exact absurd hd.2.1 (by decide)
    · injection h with h
      subst h
      exact ⟨fun hm => absurd hm (by decide), fun hd => absurd hd.2.2.1 h7⟩
    · injection h with h
      subst h
      refine ⟨fun _ => ⟨⟨not_not.1 h1, not_not.1 h2, by omega, h4⟩, h6, not_not.1 h7, h8⟩,
        fun _ => marker_infix_domain_message _ _⟩
    · injection h with h
      subst h
      have := marker_infix_got_expected "invalid email".toList ti.Email cd (by decide)
      exact ⟨fun hm => absurd (this.1 hm) (by tauto), fun hd => absurd hd.2.1 h6⟩

theorem verify_domain_mismatch_error (cid cd : GoString) (tokeninfo : GoString → Upstream)
    (idToken : GoString) (hd : isDomainMismatch cid cd (tokeninfo idToken)) :
    ∃ err, verifyGoogleToken cid cd tokeninfo idToken = .error err ∧ marker <:+: err := by
  cases hu : tokeninfo idToken with
  | serviceError e => rw [hu] at hd; exact absurd hd (by simp [isDomainMismatch])
  | doError e => rw [hu] at hd; exact absurd hd (by simp [isDomainMismatch])
  | info ti =>
    rw [hu] at hd
    obtain ⟨hearly, hp, h2, hne⟩ := hd
    have hcd : cd ≠ [] := by
      rintro rfl
      exact absurd hp (by decide)
    rw [verifyGoogleToken_of_early cid cd tokeninfo idToken ti hu hearly, if_neg hcd, if_pos hp,
      if_neg (not_not.2 h2), if_pos hne]
    exact ⟨_, rfl, marker_infix_domain_message _ _⟩


/-- C5, counterexample. Under the company domain `@example.com` a verified
token whose email `bob` does not split into two parts is a domain-policy
rejection, yet `loginApiHandler` answers 401; under the configured email
`admin@example.com` the email `bob@example.com` is a domain-policy rejection,
yet the answer is 401; and an audience mismatch whose audience string is
`invalid domain` is answered 403. -/
theorem C5_counterexample :
    (passesEarlyChecks "cid".toList (sampleInfo "bob".toList)
      ∧ ¬ domainPolicy "@example.com".toList "bob".toList
      ∧ (stringsSplit '@' "bob".toList).length ≠ 2
      ∧ (loginApiHandler (sampleConfig "@example.com".toList)
          (sampleWorld (.info (sampleInfo "bob".toList))) emptyLog
          (sampleRequest (some "abc".toList) "abc".toList "credential".toList)).reply
        = .error "Authentication failed: Invalid credentials".toList 401)
    ∧ (passesEarlyChecks "cid".toList (sampleInfo "bob@example.com".toList)
      ∧ ¬ domainPolicy "admin@example.com".toList "bob@example.com".toList
      ∧ (loginApiHandler (sampleConfig "admin@example.com".toList)
          (sampleWorld (.info (sampleInfo "bob@example.com".toList))) emptyLog
          (sampleRequest (some "abc".toList) "abc".toList "credential".toList)).reply
        = .error "Authentication failed: Invalid credentials".toList 401)
    ∧ (loginApiHandler (sampleConfig "@example.com".toList)
          (sampleWorld (.info (otherAudienceInfo "invalid domain".toList))) emptyLog
          (sampleRequest (some "abc".toList) "abc".toList "credential".toList)).reply
        = .error "Access denied.".toList 403 := by
  refine ⟨⟨by decide, by decide, by decide, by decide⟩, ⟨by decide, by decide, by decide⟩,
    by decide⟩

theorem loginApiHandler_error_status (cfg : Config) (w : LoginWorld) (log : AttemptLog)
    (r : Request) (c : Cookie) (msg : GoString)
    (hrate : (checkRateLimit log w.now r.RemoteAddr).1 = true)
    (hc : requestCookie r "g_csrf_token".toList = some c)
    (hv : verifyGoogleToken cfg.GoogleClientID cfg.CompanyDomain w.tokeninfo
      (formGet r.Form "credential".toList) = .error msg) :
    (loginApiHandler cfg w log r).reply.status
      = some (if marker <:+: msg then StatusForbidden else StatusUnauthorized) := by
  obtain ⟨out, hout⟩ := loginApiHandler_reaches_verify cfg w log r c hrate hc
  rw [hout, loginVerify_error_status cfg w _ _ out msg hv]

theorem verify_constant_text (cid cd : GoString) (tokeninfo : GoString → Upstream)
    (idToken : GoString) (ti : Tokeninfo) (hup : tokeninfo idToken = .info ti)
    (hA : ti.Audience = cid) (hI : ti.IssuedTo = cid)
    (hk : ti.ExpiresIn ≤ 0 ∨ ti.Email = [] ∨ cd = []
      ∨ (stringsHasPrefix cd "@".toList = true ∧ (stringsSplit '@' ti.Email).length ≠ 2)) :
    ∃ msg, verifyGoogleToken cid cd tokeninfo idToken = .error msg ∧ ¬ marker <:+: msg := by
  unfold verifyGoogleToken
  rw [hup]
  simp only [hA, hI, ne_eq, not_true_eq_false, if_false]
  by_cases h3 : ti.ExpiresIn ≤ 0
  · rw [if_pos h3]
    exact ⟨_, rfl, by decide⟩
  · rw [if_neg h3]
    by_cases h4 : ti.Email = []
    · rw [if_pos h4]
      exact ⟨_, rfl, by decide⟩
    · rw [if_neg h4]
      by_cases h5 : cd = []
      · rw [if_pos h5]
        exact ⟨_, rfl, by decide⟩
      · rw [if_neg h5]
        rcases hk with hk | hk | hk | ⟨hp, h2⟩
        · exact absurd hk h3
        · exact absurd hk h4
        · exact absurd hk h5
        · rw [if_pos hp, if_pos h2]
          exact ⟨_, rfl, by decide⟩

theorem verify_upstream_text (cid cd : GoString) (tokeninfo : GoString → Upstream)
    (idToken e : GoString)
    (hup : tokeninfo idToken = .serviceError e ∨ tokeninfo idToken = .doError e)
    (he : ¬ marker <:+: e) :
    ∃ msg, verifyGoogleToken cid cd tokeninfo idToken = .error msg ∧ ¬ marker <:+: msg := by
  unfold verifyGoogleToken
  rcases hup with hup | hup
  · rw [hup]
    exact ⟨_, rfl, fun hm =>
      he ((marker_infix_colon "failed to create oauth2 service".toList e (by decide)).1 hm)⟩
  · rw [hup]
    exact ⟨_, rfl, fun hm =>
      he ((marker_infix_colon "failed to verify token".toList e (by decide)).1 hm)⟩

theorem verify_audience_text (cid cd : GoString) (tokeninfo : GoString → Upstream)
    (idToken : GoString) (ti : Tokeninfo) (hup : tokeninfo idToken = .info ti)
    (hA : ti.Audience ≠ cid) (hclean : ¬ marker <:+: ti.Audience) (hcid : ¬ marker <:+: cid) :
    ∃ msg, verifyGoogleToken cid cd tokeninfo idToken = .error msg ∧ ¬ marker <:+: msg := by
  unfold verifyGoogleToken
  rw [hup]
  simp only [ne_eq, hA, not_false_eq_true, if_true]
  have := marker_infix_got_expected "invalid audience".toList ti.Audience cid (by decide)
  exact ⟨_, rfl, fun hm => absurd (this.1 hm) (by tauto)⟩

theorem verify_issuedTo_text (cid cd : GoString) (tokeninfo : GoString → Upstream)
    (idToken : GoString) (ti : Tokeninfo) (hup : tokeninfo idToken = .info ti)
    (hA : ti.Audience = cid) (hI : ti.IssuedTo ≠ cid)
    (hclean : ¬ marker <:+: ti.IssuedTo) (hcid : ¬ marker <:+: cid) :
    ∃ msg, verifyGoogleToken cid cd tokeninfo idToken = .error msg ∧ ¬ marker <:+: msg := by
  unfold verifyGoogleToken
  rw [hup]
  simp only [ne_eq, hA, not_true_eq_false, if_false, hI, not_false_eq_true, if_true]
  have := marker_infix_got_expected "invalid issued_to".toList ti.IssuedTo cid (by decide)
  exact ⟨_, rfl, fun hm => absurd (this.1 hm) (by tauto)⟩

/-- C5, amended. For every login request that passes the rate limit and
carries a `g_csrf_token` cookie, so that verification is reached:
the answer is 403 when verification fails on the mismatch of the domain part
(company domain starting with `@`, email in exactly two parts, second part
different);
the answer is 401, whatever strings the tokeninfo carries, when the audience
and issued_to checks pass and the token is expired, or the email is missing,
or the company domain is not configured, or the company domain starts with
`@` and the email does not split into exactly two parts;
the answer is 401 for an upstream failure whose error text, for an audience
mismatch whose audience and client id, and for an issued_to mismatch whose
issued_to and client id do not contain the text `invalid domain`. -/
theorem C5_status_by_failure_kind (cfg : Config) (w : LoginWorld) (log : AttemptLog)
    (r : Request) (c : Cookie)
    (hrate : (checkRateLimit log w.now r.RemoteAddr).1 = true)
    (hc : requestCookie r "g_csrf_token".toList = some c) :
    (isDomainMismatch cfg.GoogleClientID cfg.CompanyDomain
        (w.tokeninfo (formGet r.Form "credential".toList)) →
      (loginApiHandler cfg w log r).reply.status = some 403)
    ∧ (∀ ti, w.tokeninfo (formGet r.Form "credential".toList) = .info ti →
        ti.Audience = cfg.GoogleClientID → ti.IssuedTo = cfg.GoogleClientID →
        (ti.ExpiresIn ≤ 0 ∨ ti.Email = [] ∨ cfg.CompanyDomain = []
          ∨ (stringsHasPrefix cfg.CompanyDomain "@".toList = true
              ∧ (stringsSplit '@' ti.Email).length ≠ 2)) →
        (loginApiHandler cfg w log r).reply.status = some 401)
    ∧ (∀ e, (w.tokeninfo (formGet r.Form "credential".toList) = .serviceError e
          ∨ w.tokeninfo (formGet r.Form "credential".toList) = .doError e) →
        ¬ marker <:+: e →
        (loginApiHandler cfg w log r).reply.status = some 401)
    ∧ (∀ ti, w.tokeninfo (formGet r.Form "credential".toList) = .info ti →
        ti.Audience ≠ cfg.GoogleClientID →
        ¬ marker <:+: ti.Audience → ¬ marker <:+: cfg.GoogleClientID →
        (loginApiHandler cfg w log r).reply.status = some 401)
    ∧ (∀ ti, w.tokeninfo (formGet r.Form "credential".toList) = .info ti →
        ti.Audience = cfg.GoogleClientID → ti.IssuedTo ≠ cfg.GoogleClientID →
        ¬ marker <:+: ti.IssuedTo → ¬ marker <:+: cfg.GoogleClientID →
        (loginApiHandler cfg w log r).reply.status = some 401) := by
  have h401 : ∀ msg, verifyGoogleToken cfg.GoogleClientID cfg.CompanyDomain w.tokeninfo
      (formGet r.Form "credential".toList) = .error msg → ¬ marker <:+: msg →
      (loginApiHandler cfg w log r).reply.status = some 401 := by
    intro msg hv hm
    rw [loginApiHandler_error_status cfg w log r c msg hrate hc hv, if_neg hm]
    rfl
  refine ⟨?_, ?_, ?_, ?_, ?_⟩
  · intro hd
    obtain ⟨msg, hv, hm⟩ := verify_domain_mismatch_error _ _ _ _ hd
    rw [loginApiHandler_error_status cfg w log r c msg hrate hc hv, if_pos hm]
    rfl
  · intro ti hup hA hI hk
    obtain ⟨msg, hv, hm⟩ := verify_constant_text _ cfg.CompanyDomain _ _ ti hup hA hI hk
    exact h401 msg hv hm
  · intro e hup he
    obtain ⟨msg, hv, hm⟩ :=
      verify_upstream_text cfg.GoogleClientID cfg.CompanyDomain _ _ e hup he
    exact h401 msg hv hm
  · intro ti hup hA h1 h2
    obtain ⟨msg, hv, hm⟩ := verify_audience_text _ cfg.CompanyDomain _ _ ti hup hA h1 h2
    exact h401 msg hv hm
  · intro ti hup hA hI h1 h2
    obtain ⟨msg, hv, hm⟩ := verify_issuedTo_text _ cfg.CompanyDomain _ _ ti hup hA hI h1 h2
    exact h401 msg hv hm

/-- Witness of C5 amended: `bob@other.com` under `@example.com` is answered 403. -/
theorem C5_status_by_failure_kind_witness :
    isDomainMismatch "cid".toList "@example.com".toList
        (.info (sampleInfo "bob@other.com".toList))
    ∧ (loginApiHandler (sampleConfig "@example.com".toList)
        (sampleWorld (.info (sampleInfo "bob@other.com".toList))) emptyLog
        (sampleRequest (some "abc".toList) "abc".toList "credential".toList)).reply.status
      = some 403 :=
  ⟨⟨by decide, by decide, by decide, by decide⟩,
    (C5_status_by_failure_kind (sampleConfig "@example.com".toList)
      (sampleWorld (.info (sampleInfo "bob@other.com".toList))) emptyLog
      (sampleRequest (some "abc".toList) "abc".toList "credential".toList)
      { Name := "g_csrf_token".toList, Value := "abc".toList }
      (by decide) (by decide)).1 ⟨by decide, by decide, by decide, by decide⟩⟩

/-! ## authMiddleware -/

theorem authMiddleware_no_cookie (parseWithClaims : GoString → List Byte → ParseResult)
    (JWTSecret : List Byte) (r : Request)
    (hc : requestCookie r "auth_token".toList = none) :
    authMiddleware parseWithClaims JWTSecret r = .redirect "/".toList 303 := by
  simp only [authMiddleware, hc, StatusSeeOther]

theorem authMiddleware_bad_token (parseWithClaims : GoString → List Byte → ParseResult)
    (JWTSecret : List Byte) (r : Request) (c : Cookie) (e : GoString)
    (hc : requestCookie r "auth_token".toList = some c)
    (hv : validateJWT parseWithClaims JWTSecret c.Value = .error e) :
    authMiddleware parseWithClaims JWTSecret r = .redirect "/".toList 303 := by
  simp only [authMiddleware, hc, hv, StatusSeeOther]

theorem authMiddleware_good_token (parseWithClaims : GoString → List Byte → ParseResult)
    (JWTSecret : List Byte) (r : Request) (c : Cookie) (claims : Claims)
    (hc : requestCookie r "auth_token".toList = some c)
    (hv : validateJWT parseWithClaims JWTSecret c.Value = .ok claims) :
    authMiddleware parseWithClaims JWTSecret r
      = .next (contextWithValue r.context "user_email".toList claims.Email) := by
  simp only [authMiddleware, hc, hv]

/-- C6. `authMiddleware` calls the wrapped handler exactly when the request has
an `auth_token` cookie whose value `validateJWT` accepts; the handler then
sees `user_email` equal to the email of the validated claims; without the
cookie, or when `validateJWT` returns an error, the reply is a 303 redirect to
`/` and the wrapped handler is not called. -/
theorem C6_authMiddleware_gate (parseWithClaims : GoString → List Byte → ParseResult)
    (JWTSecret : List Byte) (r : Request) :
    ((∃ ctx, authMiddleware parseWithClaims JWTSecret r = .next ctx)
      ↔ ∃ c claims, requestCookie r "auth_token".toList = some c
          ∧ validateJWT parseWithClaims JWTSecret c.Value = .ok claims)
    ∧ (∀ c claims, requestCookie r "auth_token".toList = some c →
        validateJWT parseWithClaims JWTSecret c.Value = .ok claims →
        ∃ ctx, authMiddleware parseWithClaims JWTSecret r = .next ctx
          ∧ contextValue ctx "user_email".toList = some claims.Email)
    ∧ ((requestCookie r "auth_token".toList = none
          ∨ ∃ c err, requestCookie r "auth_token".toList = some c
              ∧ validateJWT parseWithClaims JWTSecret c.Value = .error err) →
        authMiddleware parseWithClaims JWTSecret r = .redirect "/".toList 303) := by
  cases hc : requestCookie r "auth_token".toList with
  | none =>
    rw [authMiddleware_no_cookie _ _ _ hc]
    simp
  | some c =>
    cases hv : validateJWT parseWithClaims JWTSecret c.Value with
    | error e =>
      rw [authMiddleware_bad_token _ _ _ c e hc hv]
      refine ⟨⟨fun ⟨_, h⟩ => (by cases h), ?_⟩, ?_, fun _ => rfl⟩
      · rintro ⟨c', claims, h1, h2⟩
        injection h1 with h1
        subst h1
        rw [hv] at h2
        cases h2
      · intro c' claims h1 h2
        injection h1 with h1
        subst h1
        rw [hv] at h2
        cases h2
    | ok claims =>
      rw [authMiddleware_good_token _ _ _ c claims hc hv]
      refine ⟨⟨fun _ => ⟨c, claims, rfl, hv⟩, fun _ => ⟨_, rfl⟩⟩, ?_, ?_⟩
      · intro c' claims' h1 h2
        injection h1 with h1
        subst h1
        rw [hv] at h2
        injection h2 with h2
        subst h2
        exact ⟨_, rfl, by simp [contextValue, contextWithValue]⟩
      · rintro (h | ⟨c', err, h1, h2⟩)
        · cases h
        · injection h1 with h1
          subst h1
          rw [hv] at h2
          cases h2


/-! ## the JWT secret -/

theorem fromHexChar_hextable (n : Fin 16) :
    fromHexChar (hextable.getD n.val '0') = some n.val := by
  revert n
  decide

theorem hexDecode_encode (bytes : List Byte) :
    hexDecodeString (hexEncodeToString bytes) = .ok bytes := by
  induction bytes with
  | nil => rfl
  | cons v rest ih =>
    have hhi := fromHexChar_hextable ⟨v.val / 16, by omega⟩
    have hlo := fromHexChar_hextable ⟨v.val % 16, by omega⟩
    simp only at hhi hlo
    have hv : (Fin.ofNat (v.val / 16 * 16 + v.val % 16) : Byte) = v := by
      apply Fin.ext
      simp only [Fin.ofNat, Fin.val_mk]
      omega
    simp only [hexEncodeToString, hexDecodeString, hhi, hlo, ih, hv]

theorem randRead_length (random : Option (Nat → Byte)) (b out : List Byte)
    (h : randRead random b = some out) : out.length = b.length := by
  cases random with
  | none => cases h
  | some src =>
    simp only [randRead, Option.some.injEq] at h
    subst h
    simp

theorem generateSecret_result (w : SecretWorld) (logs : List GoString) :
    (generateSecret w logs).result
      = match w.random with
        | none => .error .generateFailed
        | some src => .ok (freshSecret src) := by
  unfold generateSecret
  cases hr : w.random with
  | none => simp [randRead]
  | some src =>
    simp only [randRead, List.length_replicate, freshSecret]
    split_ifs <;> rfl


theorem loadFromFile_result (w : SecretWorld) (logs : List GoString) :
    (loadFromFile w logs).result = fileResult w := by
  unfold loadFromFile fileResult generatedResult
  cases hf : w.file with
  | missing => simp only [generateSecret_result]
  | unreadable err => rfl
  | content d =>
    cases hd : hexDecodeString d with
    | error e => simp only [hd, generateSecret_result]
    | ok s =>
      simp only [hd]
      split_ifs
      · rfl
      · simp only [generateSecret_result]

theorem loadOrGenerateJWTSecret_result (w : SecretWorld) :
    (loadOrGenerateJWTSecret w).result
      = if w.env ≠ [] then
          match hexDecodeString w.env with
          | .error err => .error (.invalidFormat err)
          | .ok s => if s.length = 32 then .ok s else fileResult w
        else fileResult w := by
  unfold loadOrGenerateJWTSecret
  split_ifs with he
  · cases hd : hexDecodeString w.env with
    | error e => rfl
    | ok s =>
      simp only
      split_ifs
      · rfl
      · exact loadFromFile_result w _
  · exact loadFromFile_result w _

theorem freshSecret_length (src : Nat → Byte) : (freshSecret src).length = 32 := by
  simp [freshSecret]

theorem generatedResult_ok (w : SecretWorld) (s : List Byte)
    (h : generatedResult w = .ok s) : ∃ src, w.random = some src ∧ s = freshSecret src := by
  unfold generatedResult at h
  cases hr : w.random with
  | none => rw [hr] at h; cases h
  | some src =>
    rw [hr] at h
    injection h with h
    exact ⟨src, rfl, h.symm⟩

theorem fileResult_ok (w : SecretWorld) (s : List Byte) (h : fileResult w = .ok s) :
    (s.length = 32 ∧ ∃ d, w.file = .content d ∧ hexDecodeString d = .ok s)
      ∨ (fileSkipped w ∧ ∃ src, w.random = some src ∧ s = freshSecret src) := by
  unfold fileResult at h
  cases hf : w.file with
  | missing =>
    rw [hf] at h
    exact Or.inr ⟨Or.inl hf, generatedResult_ok w s h⟩
  | unreadable err => rw [hf] at h; cases h
  | content d =>
    rw [hf] at h
    cases hd : hexDecodeString d with
    | error e =>
      simp only [hd] at h
      refine Or.inr ⟨Or.inr ⟨d, hf, ?_⟩, generatedResult_ok w s h⟩
      intro s' hs'
      rw [hd] at hs'
      cases hs'
    | ok s' =>
      simp only [hd] at h
      split_ifs at h with hl
      · injection h with h
        subst h
        exact Or.inl ⟨hl, d, rfl, hd⟩
      · refine Or.inr ⟨Or.inr ⟨d, hf, ?_⟩, generatedResult_ok w s h⟩
        intro s'' hs''
        rw [hd] at hs''
        injection hs'' with hs''
        subst hs''
        exact hl

theorem fileResult_error_iff (w : SecretWorld) :
    (∃ e, fileResult w = .error e)
      ↔ (∃ err, w.file = .unreadable err) ∨ (fileSkipped w ∧ w.random = none) := by
  unfold fileResult fileSkipped generatedResult
  cases hf : w.file with
  | missing => cases hr : w.random <;> simp
  | unreadable err => simp
  | content d =>
    cases hd : hexDecodeString d with
    | error e => cases hr : w.random <;> simp [hd]
    | ok s =>
      by_cases hl : s.length = 32
      · simp [hd, hl]
      · cases hr : w.random <;> simp [hd, hl]


theorem generateSecret_logs (w : SecretWorld) (logs : List GoString) (l : GoString)
    (hl : l ∈ logs) : l ∈ (generateSecret w logs).logs := by
  cases hr : randRead w.random (List.replicate 32 (0 : Byte)) with
  | none =>
    simp only [generateSecret, hr]
    exact hl
  | some secret =>
    simp only [generateSecret, hr]
    split_ifs <;> exact List.mem_append_left _ hl

theorem loadFromFile_logs (w : SecretWorld) (logs : List GoString) (l : GoString)
    (hl : l ∈ logs) : l ∈ (loadFromFile w logs).logs := by
  unfold loadFromFile
  split
  · exact generateSecret_logs w logs l hl
  · exact hl
  · split
    · exact generateSecret_logs w _ l (List.mem_append_left _ hl)
    · split_ifs
      · exact List.mem_append_left _ hl
      · exact generateSecret_logs w _ l (List.mem_append_left _ hl)

theorem envSkipped_of_empty (w : SecretWorld) (h : w.env = []) : envSkipped w :=
  Or.inl h

theorem envSkipped_iff_of_ok (w : SecretWorld) (s : List Byte)
    (hd : hexDecodeString w.env = .ok s) (he : w.env ≠ []) :
    envSkipped w ↔ s.length ≠ 32 := by
  unfold envSkipped
  constructor
  · rintro (h | ⟨s', h1, h2⟩)
    · exact absurd h he
    · rw [hd] at h1
      injection h1 with h1
      subst h1
      exact h2
  · exact fun h => Or.inr ⟨s, hd, h⟩

theorem envSkipped_of_error (w : SecretWorld) (e : HexError)
    (hd : hexDecodeString w.env = .error e) (he : w.env ≠ []) : ¬ envSkipped w := by
  rintro (h | ⟨s', h1, _⟩)
  · exact he h
  · rw [hd] at h1
    cases h1

theorem load_error_iff (w : SecretWorld) :
    (∃ e, (loadOrGenerateJWTSecret w).result = .error e)
      ↔ (w.env ≠ [] ∧ ∃ err, hexDecodeString w.env = .error err)
        ∨ (envSkipped w ∧ ∃ err, w.file = .unreadable err)
        ∨ (envSkipped w ∧ fileSkipped w ∧ w.random = none) := by
  rw [loadOrGenerateJWTSecret_result]
  by_cases he : w.env = []
  · have hs := envSkipped_of_empty w he
    rw [if_neg (not_not.2 he), fileResult_error_iff]
    simp [he, hs]
  · rw [if_pos he]
    cases hd : hexDecodeString w.env with
    | error e =>
      have hs := envSkipped_of_error w e hd he
      simp [he, hs]
    | ok s =>
      have hs := envSkipped_iff_of_ok w s hd he
      by_cases hl : s.length = 32
      · have hns : ¬ envSkipped w := fun h => hs.1 h hl
        simp [hl, hns]
      · have hsk : envSkipped w := hs.2 hl
        simp only [hl, if_false, fileResult_error_iff]
        simp [hsk]


theorem load_logs_of_envSkipped (w : SecretWorld) (h : envSkipped w) :
    ∃ l0, (loadOrGenerateJWTSecret w).logs = (loadFromFile w l0).logs := by
  unfold loadOrGenerateJWTSecret
  by_cases he : w.env = []
  · rw [if_neg (not_not.2 he)]
    exact ⟨_, rfl⟩
  · rw [if_pos he]
    rcases h with h | ⟨s, hd, hl⟩
    · exact absurd h he
    · simp only [hd, if_neg hl]
      exact ⟨_, rfl⟩

theorem load_ok_cases (w : SecretWorld) (s : List Byte)
    (h : (loadOrGenerateJWTSecret w).result = .ok s) :
    s.length = 32
      ∧ ((w.env ≠ [] ∧ hexDecodeString w.env = .ok s)
        ∨ (envSkipped w ∧ ∃ d, w.file = .content d ∧ hexDecodeString d = .ok s)
        ∨ (envSkipped w ∧ fileSkipped w ∧ ∃ src, w.random = some src ∧ s = freshSecret src)) := by
  rw [loadOrGenerateJWTSecret_result] at h
  have key : envSkipped w → fileResult w = .ok s →
      s.length = 32
      ∧ ((w.env ≠ [] ∧ hexDecodeString w.env = .ok s)
        ∨ (envSkipped w ∧ ∃ d, w.file = .content d ∧ hexDecodeString d = .ok s)
        ∨ (envSkipped w ∧ fileSkipped w
            ∧ ∃ src, w.random = some src ∧ s = freshSecret src)) := by
    intro hs hf
    rcases fileResult_ok w s hf with ⟨hl, hd⟩ | ⟨hfs, src, hr, hsrc⟩
    · exact ⟨hl, Or.inr (Or.inl ⟨hs, hd⟩)⟩
    · exact ⟨by rw [hsrc]; exact freshSecret_length src,
        Or.inr (Or.inr ⟨hs, hfs, src, hr, hsrc⟩)⟩
  by_cases he : w.env = []
  · rw [if_neg (not_not.2 he)] at h
    exact key (Or.inl he) h
  · rw [if_pos he] at h
    cases hd : hexDecodeString w.env with
    | error e => simp only [hd] at h; cases h
    | ok s' =>
      simp only [hd] at h
      split_ifs at h with hl
      · injection h with h
        subst h
        exact ⟨hl, Or.inl ⟨he, rfl⟩⟩
      · have hk := key (Or.inr ⟨s', hd, hl⟩) h
        rw [hd] at hk
        exact hk

/-- C7, counterexample. With `JWT_SECRET=zz` (not hexadecimal), no secret file
and a working random source, `loadOrGenerateJWTSecret` returns an error; with
the variable unset and an unreadable secret file it returns an error too. -/
theorem C7_counterexample :
    (sampleSecretWorld "zz".toList .missing).random ≠ none
    ∧ (loadOrGenerateJWTSecret (sampleSecretWorld "zz".toList .missing)).result
        = .error (.invalidFormat (.invalidByte 'z'))
    ∧ (loadOrGenerateJWTSecret
        (sampleSecretWorld [] (.unreadable "permission denied".toList))).result
        = .error (.readFailed "permission denied".toList) := by
  refine ⟨by simp [sampleSecretWorld], by decide, by decide⟩

/-- C7, amended. `loadOrGenerateJWTSecret` returns an error exactly when
`JWT_SECRET` is set but is not valid hexadecimal, or (the environment not
settling the secret) the secret file exists but cannot be read, or (neither
environment nor file settling it) generating the random bytes fails.  An
environment value of the wrong decoded length, and a file content that is
malformed or of the wrong decoded length, are logged and skipped. -/
theorem C7_error_causes (w : SecretWorld) :
    ((∃ e, (loadOrGenerateJWTSecret w).result = .error e)
      ↔ (w.env ≠ [] ∧ ∃ err, hexDecodeString w.env = .error err)
        ∨ (envSkipped w ∧ ∃ err, w.file = .unreadable err)
        ∨ (envSkipped w ∧ fileSkipped w ∧ w.random = none))
    ∧ (∀ s, w.env ≠ [] → hexDecodeString w.env = .ok s → s.length ≠ 32 →
        "JWT_SECRET in environment has incorrect length, generating new one".toList
          ∈ (loadOrGenerateJWTSecret w).logs)
    ∧ (envSkipped w → ∀ d e, w.file = .content d → hexDecodeString d = .error e →
        "Invalid JWT secret in file, generating new one".toList
          ∈ (loadOrGenerateJWTSecret w).logs)
    ∧ (envSkipped w → ∀ d s, w.file = .content d → hexDecodeString d = .ok s →
        s.length ≠ 32 →
        "JWT secret in file has incorrect length, generating new one".toList
          ∈ (loadOrGenerateJWTSecret w).logs) := by
  refine ⟨load_error_iff w, ?_, ?_, ?_⟩
  · intro s he hd hl
    unfold loadOrGenerateJWTSecret
    rw [if_pos he]
    simp only [hd, if_neg hl]
    exact loadFromFile_logs w _ _ (List.mem_singleton_self _)
  · intro hs d e hf hd
    obtain ⟨l0, h0⟩ := load_logs_of_envSkipped w hs
    rw [h0]
    unfold loadFromFile
    rw [hf]
    simp only [hd]
    exact generateSecret_logs w _ _ (List.mem_append_right _ (List.mem_singleton_self _))
  · intro hs d s hf hd hl
    obtain ⟨l0, h0⟩ := load_logs_of_envSkipped w hs
    rw [h0]
    unfold loadFromFile
    rw [hf]
    simp only [hd, if_neg hl]
    exact generateSecret_logs w _ _ (List.mem_append_right _ (List.mem_singleton_self _))

/-- C8, counterexample. With `JWT_SECRET=00` (one byte once decoded) and a
secret file holding 32 valid bytes, the environment value is discarded in
favour of the file: the 32 bytes of the file are returned, they are not the
bytes the random source would deliver, nothing is generated or logged as
generated, and the file is left as it was. -/
theorem C8_counterexample :
    hexDecodeString "00".toList = .ok [0]
    ∧ (loadOrGenerateJWTSecret
        (sampleSecretWorld "00".toList (.content sampleFileHex))).result
      = .ok (List.replicate 32 1)
    ∧ List.replicate 32 (1 : Byte) ≠ freshSecret (fun _ => 0)
    ∧ (loadOrGenerateJWTSecret
        (sampleSecretWorld "00".toList (.content sampleFileHex))).logs
      = ["JWT_SECRET in environment has incorrect length, generating new one".toList,
          "JWT secret loaded from file".toList]
    ∧ (loadOrGenerateJWTSecret
        (sampleSecretWorld "00".toList (.content sampleFileHex))).file
      = .content sampleFileHex := by
  refine ⟨by decide, by decide, by decide, by decide, by decide⟩

/-- C8, amended. Whenever `loadOrGenerateJWTSecret` returns a secret without
error, the secret is exactly 32 bytes long: it is the decoded environment
value, or (the environment value being absent or of another decoded length)
the decoded file content, or (neither settling it: every sourced value
absent, malformed or of another decoded length) the freshly generated 32
bytes. -/
theorem C8_secret_has_32_bytes (w : SecretWorld) (s : List Byte)
    (h : (loadOrGenerateJWTSecret w).result = .ok s) :
    s.length = 32
      ∧ ((w.env ≠ [] ∧ hexDecodeString w.env = .ok s)
        ∨ (envSkipped w ∧ ∃ d, w.file = .content d ∧ hexDecodeString d = .ok s)
        ∨ (envSkipped w ∧ fileSkipped w ∧ ∃ src, w.random = some src ∧ s = freshSecret src)) :=
  load_ok_cases w s h

/-- Witness of C8: an environment value of one byte and a file of two bytes are
both discarded and the fresh secret is returned. -/
theorem C8_secret_has_32_bytes_witness :
    (loadOrGenerateJWTSecret (sampleSecretWorld "00".toList (.content "0a0b".toList))).result
      = .ok (freshSecret (fun _ => 0))
    ∧ (freshSecret (fun _ => (0 : Byte))).length = 32 :=
  ⟨by decide,
    (C8_secret_has_32_bytes (sampleSecretWorld "00".toList (.content "0a0b".toList))
      (freshSecret (fun _ => 0)) (by decide)).1⟩

/-- C9. Hex decoding undoes hex encoding for every byte string.  A run of
`loadOrGenerateJWTSecret` with `JWT_SECRET` unset, no secret file and a
successful write returns the generated secret and leaves its hex encoding in
the file; a second run with `JWT_SECRET` unset and that file returns the
identical bytes, whatever its random source and write outcome. -/
theorem C9_secret_persistence_round_trip (src : Nat → Byte)
    (random₂ : Option (Nat → Byte)) (writeOk₂ : Bool) :
    (∀ bytes, hexDecodeString (hexEncodeToString bytes) = .ok bytes)
    ∧ (loadOrGenerateJWTSecret
        { env := [], file := .missing, random := some src, writeOk := true }).result
      = .ok (freshSecret src)
    ∧ (loadOrGenerateJWTSecret
        { env := [], file := .missing, random := some src, writeOk := true }).file
      = .content (hexEncodeToString (freshSecret src))
    ∧ (loadOrGenerateJWTSecret
        { env := [],
          file := (loadOrGenerateJWTSecret
            { env := [], file := .missing, random := some src, writeOk := true }).file,
          random := random₂, writeOk := writeOk₂ }).result
      = .ok (freshSecret src) := by
  have h1 : (loadOrGenerateJWTSecret
        { env := [], file := .missing, random := some src, writeOk := true }).file
      = .content (hexEncodeToString (freshSecret src)) := by
    simp [loadOrGenerateJWTSecret, loadFromFile, generateSecret, randRead, freshSecret]
  refine ⟨hexDecode_encode, ?_, h1, ?_⟩
  · rw [loadOrGenerateJWTSecret_result]
    simp [fileResult, generatedResult]
  · rw [h1, loadOrGenerateJWTSecret_result]
    simp [fileResult, hexDecode_encode, freshSecret_length]

end DataDash
